import Mathlib

/-!
Shallow embedding of the rce-infra control service and edge agent.

The control-service store is embedded from
`src/unnamed/part_012` (package `postgres`, the current revision of the
store: batch-5 lease in `GetNextCommand`, `is_final` upsert in
`InsertLogChunks`, `MarkAllChunksAsFinal` side effect of
`UpdateCommandStatus`, inclusive `chunk_index >= $2` filter in
`GetCommandLogs`).  The service layer is embedded from
`src/unnamed/part_008` (`CommandService`) and
`src/agent-svc/app/services/metadata_service.go` (`LogService`).  The
payload validator is embedded from `src/agent-svc/app/utils/validator.go`.
The edge-agent chunker is embedded from
`src/node-agent/app/executor/stdout_chunker.go`, the run-command execution
logic from `src/node-agent/app/services/runtime.go`, and the heartbeat /
re-registration logic from `src/unnamed/part_023` and
`src/node-agent/app/services/registration.go`.

Modelling conventions: UUIDs are `Nat`; Go `int64` / `int` are `Int`;
byte strings (`data` of a log chunk) are `List Nat` with one `Nat` per
byte; SQL tables are Lean lists of row structures kept in insertion
order, with `ORDER BY` rendered as an explicit sort; each SQL statement
is one atomic Lean function, so a Go method issuing several statements
is a composition of several such functions.
-/

/-- JSON value, the model of Go `interface{}` values decoded from JSON.
Numbers are modelled as integers (the repository's schemas only use
integral fields).  Nested objects are not needed by any registered
command schema and are omitted. -/
inductive JValue where
  | jnull
  | jbool (b : Bool)
  | jnum (n : Int)
  | jstr (s : String)
  | jarr (xs : List JValue)

/-- A JSON object (Go `map[string]interface{}`), as an association list. -/
abbrev JObject := List (String × JValue)

/-- Field lookup in a JSON object. -/
def lookupField (p : JObject) (k : String) : Option JValue :=
  (p.find? (fun kv => kv.1 = k)).map (fun kv => kv.2)

/-- Terminal statuses, from `Store.UpdateCommandStatus` in
`src/unnamed/part_012` (`status == "success" || status == "failed" ||
status == "timeout"`). -/
def isTerminalStatus (status : String) : Bool :=
  status = "success" || status = "failed" || status = "timeout"

/-- A row of the `nodes` table (`domains.Node`, restricted to the fields
the embedded operations read). -/
structure NodeRow where
  nodeId : String
  disabled : Bool
deriving DecidableEq

/-- A row of the `node_commands` table (`domains.NodeCommand`).
`createdSeq` models `created_at` together with the monotonic primary
key: rows are appended in creation order. -/
structure CommandRow where
  commandId : Nat
  nodeId : String
  commandType : String
  payload : JObject
  status : String
  exitCode : Option Int
  errorMsg : Option String
  createdSeq : Nat

/-- A row of the `command_logs` table (`domains.CommandLog`, without the
server-generated `id` / `size_bytes` / `created_at` columns, which no
embedded operation reads). -/
structure LogRow where
  commandId : Nat
  chunkIndex : Int
  stream : String
  data : List Nat
  encoding : String
  isFinal : Bool
deriving DecidableEq

/-- An incoming log chunk (`domains.CommandLog` as used for the `chunks`
argument of `InsertLogChunks`; the `command_id` of the stored row comes
from the separate `commandID` argument). -/
structure CommandLog where
  chunkIndex : Int
  stream : String
  data : List Nat
  encoding : String
  isFinal : Bool
deriving DecidableEq

/-- The relational store: the three durable tables. -/
structure DBState where
  nodes : List NodeRow
  commands : List CommandRow
  logs : List LogRow

/-- The upsert key of `command_logs`: `UNIQUE (command_id, chunk_index,
stream)`. -/
def sameLogKey (a b : LogRow) : Bool :=
  a.commandId = b.commandId && a.chunkIndex = b.chunkIndex && a.stream = b.stream

/-- One `INSERT ... ON CONFLICT (command_id, chunk_index, stream) DO
UPDATE SET is_final = EXCLUDED.is_final` statement from
`Store.InsertLogChunks` (`src/unnamed/part_012` lines 248-253).  On
conflict only `is_final` is overwritten with the incoming value; the
stored `data` and `encoding` are kept. -/
def upsertLogChunk (logs : List LogRow) (row : LogRow) : List LogRow :=
  if logs.any (fun r => sameLogKey r row) then
    logs.map (fun r => if sameLogKey r row then { r with isFinal := row.isFinal } else r)
  else
    logs ++ [row]

/-- Conversion of an incoming chunk to a stored row, for a given
`command_id` argument. -/
def chunkRow (commandId : Nat) (c : CommandLog) : LogRow :=
  { commandId := commandId, chunkIndex := c.chunkIndex, stream := c.stream,
    data := c.data, encoding := c.encoding, isFinal := c.isFinal }

/-- `Store.InsertLogChunks` (`src/unnamed/part_012` lines 240-268): one
upsert per chunk; with `DO UPDATE` the `RETURNING chunk_index` row is
always produced, so every chunk's index is collected into the acked
list. -/
def insertLogChunks (logs : List LogRow) (commandId : Nat) (chunks : List CommandLog) :
    List Int × List LogRow :=
  chunks.foldl
    (fun acc c => (acc.1 ++ [c.chunkIndex], upsertLogChunk acc.2 (chunkRow commandId c)))
    ([], logs)

/-- `Store.MarkAllChunksAsFinal` (`src/unnamed/part_012` lines 202-210):
`UPDATE command_logs SET is_final = TRUE WHERE command_id = $1 AND
is_final = FALSE`. -/
def markAllChunksAsFinal (logs : List LogRow) (commandId : Nat) : List LogRow :=
  logs.map (fun r =>
    if r.commandId = commandId && r.isFinal = false then { r with isFinal := true } else r)

/-- The first statement of `Store.UpdateCommandStatus`
(`src/unnamed/part_012` lines 183-188): `UPDATE node_commands SET status
= $1, exit_code = $2, error_msg = $3, updated_at = $4 WHERE command_id =
$5`, with no guard on the current status. -/
def updateStatusStatement (commands : List CommandRow) (commandId : Nat) (status : String)
    (exitCode : Option Int) (errorMsg : Option String) : List CommandRow :=
  commands.map (fun r =>
    if r.commandId = commandId then
      { r with status := status, exitCode := exitCode, errorMsg := errorMsg }
    else r)

/-- `Store.UpdateCommandStatus` (`src/unnamed/part_012` lines 181-199):
the status update statement, then - when the new status is terminal - a
second, separate `MarkAllChunksAsFinal` statement (whose error is
discarded by the empty `if err := ...; err != nil` block).  The two
statements are not wrapped in a transaction. -/
def updateCommandStatusStore (db : DBState) (commandId : Nat) (status : String)
    (exitCode : Option Int) (errorMsg : Option String) : DBState :=
  let db1 := { db with
    commands := updateStatusStatement db.commands commandId status exitCode errorMsg }
  if isTerminalStatus status then
    { db1 with logs := markAllChunksAsFinal db1.logs commandId }
  else db1

/-- The observable store state after the first statement of
`Store.UpdateCommandStatus` has committed and before
`MarkAllChunksAsFinal` runs (the two are separate auto-committed
statements issued on a pool, not a transaction). -/
def updateCommandStatusMidState (db : DBState) (commandId : Nat) (status : String)
    (exitCode : Option Int) (errorMsg : Option String) : DBState :=
  { db with commands := updateStatusStatement db.commands commandId status exitCode errorMsg }

/-- Lexicographic order on character lists, the model of the text
collation used by `ORDER BY stream ASC`. -/
def charListLe : List Char → List Char → Bool
  | [], _ => true
  | _ :: _, [] => false
  | x :: xs, y :: ys => if x < y then true else if y < x then false else charListLe xs ys

/-- Text comparison of two stream names. -/
def streamLe (a b : String) : Bool := charListLe a.data b.data

/-- The `ORDER BY chunk_index ASC, stream ASC` order of
`Store.GetCommandLogs`. -/
def logRowLe (a b : LogRow) : Prop :=
  a.chunkIndex < b.chunkIndex ∨ (a.chunkIndex = b.chunkIndex ∧ streamLe a.stream b.stream = true)

instance : DecidableRel logRowLe := fun a b => by
  unfold logRowLe; infer_instance

instance : IsTrans LogRow logRowLe := by
  constructor
  have htrans : ∀ a b c : List Char,
      charListLe a b = true → charListLe b c = true → charListLe a c = true := by
    intro a
    induction a with
    | nil => intro b c h1 h2; rfl
    | cons x xs ih =>
      intro b c h1 h2
      cases b with
      | nil => simp [charListLe] at h1
      | cons y ys =>
        cases c with
        | nil => simp [charListLe] at h2
        | cons z zs =>
          simp only [charListLe] at h1 h2 ⊢
          by_cases hxy : x < y
          · by_cases hyz : y < z
            · have hxz : x < z := lt_trans hxy hyz
              simp [hxz]
            · by_cases hzy : z < y
              · simp [hyz, hzy] at h2
              · have hyz2 : y = z := le_antisymm (not_lt.mp hzy) (not_lt.mp hyz)
                subst hyz2
                simp [hxy]
          · by_cases hyx : y < x
            · simp [hxy, hyx] at h1
            · have hxy2 : x = y := le_antisymm (not_lt.mp hyx) (not_lt.mp hxy)
              subst hxy2
              simp only [lt_irrefl, if_false] at h1
              by_cases hxz : x < z
              · simp [hxz]
              · by_cases hzx : z < x
                · simp [hxz, hzx] at h2
                · have hxz2 : x = z := le_antisymm (not_lt.mp hzx) (not_lt.mp hxz)
                  subst hxz2
                  simp only [lt_irrefl, if_false] at h2 ⊢
                  exact ih ys zs h1 h2
  intro a b c hab hbc
  rcases hab with h1 | ⟨h1, h1s⟩ <;> rcases hbc with h2 | ⟨h2, h2s⟩
  · exact Or.inl (lt_trans h1 h2)
  · exact Or.inl (h2 ▸ h1)
  · exact Or.inl (h1 ▸ h2)
  · exact Or.inr ⟨h1.trans h2, htrans _ _ _ h1s h2s⟩

instance : IsTotal LogRow logRowLe := by
  constructor
  have htot : ∀ a b : List Char, charListLe a b = true ∨ charListLe b a = true := by
    intro a
    induction a with
    | nil => intro b; exact Or.inl rfl
    | cons x xs ih =>
      intro b
      cases b with
      | nil => exact Or.inr rfl
      | cons y ys =>
        rcases lt_trichotomy x y with h | h | h
        · left; simp [charListLe, h]
        · subst h
          rcases ih ys with h2 | h2
          · left; simp [charListLe, lt_irrefl, h2]
          · right; simp [charListLe, lt_irrefl, h2]
        · right; simp [charListLe, h]
  intro a b
  rcases lt_trichotomy a.chunkIndex b.chunkIndex with h | h | h
  · exact Or.inl (Or.inl h)
  · rcases htot a.stream.data b.stream.data with hs | hs
    · exact Or.inl (Or.inr ⟨h, hs⟩)
    · exact Or.inr (Or.inr ⟨h.symm, hs⟩)
  · exact Or.inr (Or.inl h)

/-- `Store.GetCommandLogs` (`src/unnamed/part_012` lines 270-308):
`SELECT ... WHERE command_id = $1 [AND chunk_index >= $2] ORDER BY
chunk_index ASC, stream ASC`.  Note the filter is inclusive (`>=`), as
the code and its own doc comment state. -/
def getCommandLogs (logs : List LogRow) (commandId : Nat) (afterChunkIndex : Option Int) :
    List LogRow :=
  let filtered := logs.filter (fun r =>
    r.commandId = commandId &&
      (match afterChunkIndex with
       | some k => decide (k ≤ r.chunkIndex)
       | none => true))
  filtered.insertionSort logRowLe


/-- Per-chunk validation of `LogService.PushCommandLogs`
(`src/agent-svc/app/services/metadata_service.go` lines 69-83): the
whole batch is walked and the first invalid chunk aborts the call with
an error, before any insert is attempted.  (The `chunk.Encoding =
"utf-8"` defaulting in the source assigns to the loop copy and has no
effect on the slice, so it is not modelled as a state change.) -/
def validateChunks : List CommandLog → Except String Unit
  | [] => Except.ok ()
  | c :: rest =>
    if c.stream ≠ "stdout" ∧ c.stream ≠ "stderr" then Except.error "invalid stream"
    else if c.chunkIndex < 0 then Except.error "invalid chunk_index"
    else if c.data = [] then Except.error "empty data in chunk"
    else validateChunks rest

/-- A chunk that fails the validation of `LogService.PushCommandLogs`. -/
def chunkInvalid (c : CommandLog) : Prop :=
  (c.stream ≠ "stdout" ∧ c.stream ≠ "stderr") ∨ c.chunkIndex < 0 ∨ c.data = []

instance (c : CommandLog) : Decidable (chunkInvalid c) := by
  unfold chunkInvalid; infer_instance

/-- `LogService.PushCommandLogs`
(`src/agent-svc/app/services/metadata_service.go` lines 46-92):
ownership check, then - when the command is already terminal - every
incoming chunk is forced to `is_final=true`, then the whole batch is
validated, and only then `InsertLogChunks` runs.  An error leaves the
store untouched. -/
def pushCommandLogs (db : DBState) (commandId : Nat) (nodeId : String)
    (chunks : List CommandLog) : Except String (List Int) × DBState :=
  match db.commands.find? (fun r => r.commandId = commandId) with
  | none => (Except.error "command not found", db)
  | some cmd =>
    if cmd.nodeId ≠ nodeId then (Except.error "command does not belong to node", db)
    else
      let chunks1 := if isTerminalStatus cmd.status then
          chunks.map (fun c => { c with isFinal := true })
        else chunks
      match validateChunks chunks1 with
      | Except.error e => (Except.error e, db)
      | Except.ok () =>
        let inserted := insertLogChunks db.logs commandId chunks1
        (Except.ok inserted.1, { db with logs := inserted.2 })

/-- `LogService.GetCommandLogs`
(`src/agent-svc/app/services/metadata_service.go` lines 94-99): a direct
delegation to `Store.GetCommandLogs`. -/
def getCommandLogsService (db : DBState) (commandId : Nat) (afterChunkIndex : Option Int) :
    List LogRow :=
  getCommandLogs db.logs commandId afterChunkIndex

/-- Model of the go-playground/validator `url` tag used by the
`UpdateAgent` schema: a non-empty string that parses as
`scheme://rest` with a non-empty scheme (the precise library check also
admits some other absolute-URI shapes; no claim depends on them). -/
def isValidURL (s : String) : Bool :=
  s ≠ "" && (s.splitOn "://").length ≥ 2 && (s.splitOn "://").headD "" ≠ ""

/-- Go `json.Unmarshal` of a JSON field into a `string` struct field:
missing field or JSON null leave the zero value, a JSON string is taken,
any other shape is an unmarshal error. -/
def unmarshalString : Option JValue → Except String String
  | none => Except.ok ""
  | some JValue.jnull => Except.ok ""
  | some (JValue.jstr s) => Except.ok s
  | some _ => Except.error "failed to unmarshal payload"

/-- Go `json.Unmarshal` into an `int` struct field. -/
def unmarshalInt : Option JValue → Except String Int
  | none => Except.ok 0
  | some JValue.jnull => Except.ok 0
  | some (JValue.jnum n) => Except.ok n
  | some _ => Except.error "failed to unmarshal payload"

/-- Go `json.Unmarshal` into a `[]string` struct field: missing or null
gives a nil slice (`none`), an array of strings gives the list, anything
else is an unmarshal error. -/
def unmarshalStringList : Option JValue → Except String (Option (List String))
  | none => Except.ok none
  | some JValue.jnull => Except.ok none
  | some (JValue.jarr xs) =>
    let strs := xs.mapA (fun v => match v with
      | JValue.jstr s => some s
      | _ => none)
    match strs with
    | some l => Except.ok (some l)
    | none => Except.error "failed to unmarshal payload"
  | some _ => Except.error "failed to unmarshal payload"

/-- `ValidateCommandPayload` (`src/agent-svc/app/utils/validator.go`
lines 36-59) together with the registry of `getCommandRegistry`: unknown
type is an error; otherwise the payload is unmarshalled into the
registered schema struct and checked against its validation tags
(`RunCommand`: `cmd` required; `UpdateAgent`: `version` required, `url`
required and a URL; `UpdatePackage`: `packages` required (non-nil),
`action` required and one of install/remove/upgrade). -/
def validateCommandPayload (commandType : String) (payload : JObject) : Except String Unit :=
  if commandType = "RunCommand" then do
    let cmd ← unmarshalString (lookupField payload "cmd")
    let _ ← unmarshalStringList (lookupField payload "args")
    let _ ← unmarshalInt (lookupField payload "timeout_sec")
    if cmd = "" then Except.error "validation failed" else Except.ok ()
  else if commandType = "UpdateAgent" then do
    let version ← unmarshalString (lookupField payload "version")
    let url ← unmarshalString (lookupField payload "url")
    if version = "" then Except.error "validation failed"
    else if url = "" || !isValidURL url then Except.error "validation failed"
    else Except.ok ()
  else if commandType = "UpdatePackage" then do
    let packages ← unmarshalStringList (lookupField payload "packages")
    let action ← unmarshalString (lookupField payload "action")
    if packages = none then Except.error "validation failed"
    else if action = "" || !(action = "install" || action = "remove" || action = "upgrade") then
      Except.error "validation failed"
    else Except.ok ()
  else Except.error "unknown command type"

/-- `Store.CreateCommand` (`src/unnamed/part_012` lines 86-102): insert
one row with the freshly generated UUID and `status='queued'`.  The
generated UUID is passed in as `freshId` (modelling `uuid.New()`). -/
def createCommand (db : DBState) (nodeId commandType : String) (payload : JObject)
    (freshId : Nat) : DBState :=
  { db with commands := db.commands ++
      [{ commandId := freshId, nodeId := nodeId, commandType := commandType,
         payload := payload, status := "queued", exitCode := none, errorMsg := none,
         createdSeq := db.commands.length }] }

/-- `CommandService.SubmitCommand` (`src/unnamed/part_008` lines 24-49):
payload validation, node existence and disabled checks, then
`CreateCommand`. -/
def submitCommand (db : DBState) (commandType nodeId : String) (payload : JObject)
    (freshId : Nat) : Except String Nat × DBState :=
  match validateCommandPayload commandType payload with
  | Except.error e => (Except.error e, db)
  | Except.ok () =>
    match db.nodes.find? (fun n => n.nodeId = nodeId) with
    | none => (Except.error "node not found", db)
    | some node =>
      if node.disabled then (Except.error "node is disabled", db)
      else (Except.ok freshId, createCommand db nodeId commandType payload freshId)

/-- `CommandService.UpdateCommandStatus` (`src/unnamed/part_008` lines
56-71): the command must exist and belong to the node; no check of the
current status is made before delegating to
`Store.UpdateCommandStatus`. -/
def updateCommandStatusService (db : DBState) (commandId : Nat) (nodeId : String)
    (status : String) (exitCode : Option Int) (errorMsg : Option String) :
    Except String Unit × DBState :=
  match db.commands.find? (fun r => r.commandId = commandId) with
  | none => (Except.error "command not found", db)
  | some cmd =>
    if cmd.nodeId ≠ nodeId then (Except.error "command does not belong to node", db)
    else (Except.ok (), updateCommandStatusStore db commandId status exitCode errorMsg)

/-- `dropCR` of `bufio.ScanLines`: drop a single trailing carriage
return (byte 13). -/
def dropCR (l : List Nat) : List Nat :=
  match l.getLast? with
  | some 13 => l.dropLast
  | _ => l

/-- The token sequence produced by `bufio.Scanner` with the default
`ScanLines` split function over a byte stream, as consumed by
`Chunker.readStream` (`src/node-agent/app/executor/stdout_chunker.go`
lines 62-76): split at newline bytes (10), each token stripped of the
newline and of one trailing carriage return; a final non-terminated
token is still produced at EOF.  (The scanner's 64 KiB token-size limit
is not modelled; theorems using this definition are read under the
assumption that every line is below that limit.)  `cur` is the partial
line accumulated so far. -/
def scanLinesGo (cur : List Nat) : List Nat → List (List Nat)
  | [] => if cur = [] then [] else [dropCR cur]
  | b :: bs => if b = 10 then dropCR cur :: scanLinesGo [] bs else scanLinesGo (cur ++ [b]) bs

/-- All tokens of the scanner over a whole stream. -/
def scanLines (bs : List Nat) : List (List Nat) :=
  scanLinesGo [] bs

/-- A chunk emitted by the chunker (`executor.Chunk`). -/
structure Chunk where
  chunkIndex : Int
  stream : String
  data : List Nat
  isFinal : Bool
deriving DecidableEq

/-- The chunker's mutable state (`executor.Chunker`): the two stream
buffers, the single monotonic chunk counter shared by both streams, and
the sequence of chunks sent to the output channel.  The channel is
modelled as the list of delivered chunks; the `select`/`default` drop
branch of `flushStream` ("shouldn't happen with buffered channel") is
not taken in this model. -/
structure ChunkerState where
  chunkSize : Nat
  stdoutBuffer : List Nat
  stderrBuffer : List Nat
  currentChunkIndex : Int
  emitted : List Chunk
deriving DecidableEq

/-- `NewChunker`: empty buffers, counter at 0. -/
def initChunker (chunkSize : Nat) : ChunkerState :=
  { chunkSize := chunkSize, stdoutBuffer := [], stderrBuffer := [],
    currentChunkIndex := 0, emitted := [] }

/-- `Chunker.flushStream` and `Chunker.flushStreamFinal`
(`src/node-agent/app/executor/stdout_chunker.go` lines 108-138 and
149-180): the two functions are identical except for the `IsFinal` flag,
modelled here by the `isFinal` parameter.  An empty buffer is not
flushed; otherwise the whole buffer becomes one chunk carrying the
current shared index, and the counter advances. -/
def flushStream (isFinal : Bool) (stream : String) (c : ChunkerState) : ChunkerState :=
  let buffer := if stream = "stdout" then c.stdoutBuffer else c.stderrBuffer
  if buffer = [] then c
  else
    let c1 := if stream = "stdout" then { c with stdoutBuffer := [] }
              else { c with stderrBuffer := [] }
    { c1 with
      emitted := c1.emitted ++
        [{ chunkIndex := c.currentChunkIndex, stream := stream, data := buffer,
           isFinal := isFinal }],
      currentChunkIndex := c.currentChunkIndex + 1 }

/-- The size checks at the end of `Chunker.appendToBuffer`
(`src/node-agent/app/executor/stdout_chunker.go` lines 88-94): flush
stdout if its buffer reached `chunkSize`, then likewise stderr. -/
def sizeFlush (c : ChunkerState) : ChunkerState :=
  if c.chunkSize ≤ c.stdoutBuffer.length then
    (if (flushStream false "stdout" c).chunkSize ≤
        (flushStream false "stdout" c).stderrBuffer.length then
      flushStream false "stderr" (flushStream false "stdout" c)
    else flushStream false "stdout" c)
  else
    (if c.chunkSize ≤ c.stderrBuffer.length then flushStream false "stderr" c else c)

/-- `Chunker.appendToBuffer`
(`src/node-agent/app/executor/stdout_chunker.go` lines 79-95): append
the scanned line plus a newline byte to the stream's buffer, then flush
either stream whose buffer reached `chunkSize`. -/
def appendToBuffer (stream : String) (data : List Nat) (c : ChunkerState) : ChunkerState :=
  sizeFlush
    (if stream = "stdout" then
      { c with stdoutBuffer := c.stdoutBuffer ++ data ++ [10] }
    else
      { c with stderrBuffer := c.stderrBuffer ++ data ++ [10] })

/-- `Chunker.flushBuffers` (the interval ticker branch where the
interval has elapsed): flush stdout, then stderr, non-final. -/
def flushBuffers (c : ChunkerState) : ChunkerState :=
  flushStream false "stderr" (flushStream false "stdout" c)

/-- `Chunker.FinalFlush`
(`src/node-agent/app/executor/stdout_chunker.go` lines 141-146): flush
any residual stdout then stderr buffers with `IsFinal=true` and close
the channel. -/
def finalFlush (c : ChunkerState) : ChunkerState :=
  flushStream true "stderr" (flushStream true "stdout" c)

/-- The chunker's externally driven events: a scanned line arriving from
one of the two reader goroutines (`readStream` calling
`appendToBuffer`), the flush ticker firing with the interval elapsed
(`flushBuffers`), and the end-of-stream flush of one reader
(`readStream` calling `flushStream` at EOF). -/
inductive ChunkEvent where
  | line (stream : String) (data : List Nat)
  | tick
  | eofFlush (stream : String)
deriving DecidableEq

/-- One chunker step. -/
def chunkerStep (c : ChunkerState) : ChunkEvent → ChunkerState
  | ChunkEvent.line s d => appendToBuffer s d c
  | ChunkEvent.tick => flushBuffers c
  | ChunkEvent.eofFlush s => flushStream false s c

/-- A full chunker run: the interleaved reader/ticker events, then the
`FinalFlush` issued by `executeRunCommand` after `command.Wait`
returns. -/
def runChunker (chunkSize : Nat) (events : List ChunkEvent) : ChunkerState :=
  finalFlush (events.foldl chunkerStep (initChunker chunkSize))

/-- The stdout lines fed to the chunker by a run, in order. -/
def stdoutLines (events : List ChunkEvent) : List (List Nat) :=
  events.filterMap (fun e => match e with
    | ChunkEvent.line s d => if s = "stdout" then some d else none
    | _ => none)

/-- Concatenation of the data of the stdout chunks of a chunk list, in
list order. -/
def stdoutData (chunks : List Chunk) : List Nat :=
  ((chunks.filter (fun c => c.stream = "stdout")).map (fun c => c.data)).flatten

/-- The bytes reconstructed from a byte stream after the scanner /
chunker pipeline: every scanned line with a newline byte appended. -/
def normalizeNewlines (bs : List Nat) : List Nat :=
  ((scanLines bs).map (fun l => l ++ [10])).flatten

/-- The effective execution timeout of `RuntimeService.executeRunCommand`
(`src/node-agent/app/services/runtime.go` lines 468-471): 300 seconds
unless the payload carries a JSON number `timeout_sec` that is strictly
positive (a missing field, a non-number, zero or a negative value all
fall back to the default). -/
def effectiveTimeoutSec (timeoutField : Option JValue) : Int :=
  match timeoutField with
  | some (JValue.jnum ts) => if ts > 0 then ts else 300
  | _ => 300

/-- Outcome of `command.Wait` as discriminated by `executeRunCommand`:
no error, an `exec.ExitError` carrying the child's exit code, or any
other error. -/
inductive WaitOutcome where
  | ok
  | exitErr (code : Int)
  | otherErr
deriving DecidableEq

/-- State of the execution context (`execCtx.Err()`) when `Wait`
returns. -/
inductive CtxOutcome where
  | live
  | deadlineExceeded
  | canceled
deriving DecidableEq

/-- The status / exit-code / error-message classification of
`executeRunCommand` (`src/node-agent/app/services/runtime.go` lines
517-535): success with exit code 0 when `Wait` returned no error;
otherwise `timeout` with exit code -1 when the context deadline was
exceeded, else `failed` with the reported exit code for an
`exec.ExitError`, else `failed` with exit code -1. -/
def classifyRunResult (wait : WaitOutcome) (ctx : CtxOutcome) : String × Int :=
  match wait with
  | WaitOutcome.ok => ("success", 0)
  | w =>
    if ctx = CtxOutcome.deadlineExceeded then ("timeout", -1)
    else
      match w with
      | WaitOutcome.exitErr code => ("failed", code)
      | _ => ("failed", -1)

/-- The agent-side state touched by the heartbeat loop: the identity
file (`{node_id, jwt_token, metadata}`), the two live HTTP clients'
bearer tokens, and the heartbeat service's own `nodeID` field. -/
structure AgentState where
  identPresent : Bool
  identNodeId : String
  identToken : String
  httpClientToken : String
  agentClientToken : String
  hbNodeId : String
deriving DecidableEq

/-- Result of one heartbeat request as discriminated by
`HeartbeatService.sendHeartbeat` via `isNodeNotFoundError`
(`src/unnamed/part_023` lines 52-81): success, an HTTP 404 / node-not-
found error, or any other error. -/
inductive HbOutcome where
  | ok
  | notFound404
  | otherErr
deriving DecidableEq

/-- `HeartbeatService.sendHeartbeat` plus
`HeartbeatService.reRegister` (`src/unnamed/part_023` lines 52-102) and
`RegistrationService.ReRegister`
(`src/node-agent/app/services/registration.go` lines 78-113).  On a 404
the registration path is invoked with the `node_id` loaded from the
identity file (never a freshly generated one); the server-minted token
`freshToken` is saved to the identity file and installed into both live
HTTP clients via `UpdateToken`; `h.nodeID` is set to the identity's
node id.  If the identity file is absent, `ReRegister` returns an error
which is only logged.  Any non-404 failure is logged and ignored.  The
second component records the `node_id` the registration request was
sent with, if any. -/
def sendHeartbeat (st : AgentState) (outcome : HbOutcome) (freshToken : String) :
    AgentState × Option String :=
  match outcome with
  | HbOutcome.ok => (st, none)
  | HbOutcome.notFound404 =>
    if st.identPresent then
      ({ st with
          identToken := freshToken,
          httpClientToken := freshToken,
          agentClientToken := freshToken,
          hbNodeId := st.identNodeId },
       some st.identNodeId)
    else (st, none)
  | HbOutcome.otherErr => (st, none)

/-- The two atomic database statements of `Store.GetNextCommand`
(`src/unnamed/part_012` lines 104-179), split for the concurrency
analysis.  First statement: `SELECT ... WHERE node_id = $1 AND status =
'queued' ORDER BY created_at ASC LIMIT 5` (no locking clause, not inside
a transaction). -/
def selectQueued (db : DBState) (nodeId : String) : List Nat :=
  ((db.commands.filter (fun c => c.nodeId = nodeId && c.status = "queued")).map
    (fun c => c.commandId)).take 5

/-- Second statement of `Store.GetNextCommand`: `UPDATE node_commands
SET status = 'running', updated_at = $1 WHERE command_id IN (...) AND
status = 'queued'`, returning the number of affected rows. -/
def claimRunning (db : DBState) (ids : List Nat) : DBState × Nat :=
  let affected := (db.commands.filter
    (fun c => (ids.contains c.commandId) && c.status = "queued")).length
  ({ db with commands := db.commands.map (fun c =>
      if (ids.contains c.commandId) && c.status = "queued" then
        { c with status := "running" }
      else c) },
    affected)

/-- Local phase of one poller executing `Store.GetNextCommand`: not yet
started, holding the ids returned by the select, or finished with the
list of command ids it returned to its agent (each marked `running` in
the returned objects by the loop at lines 174-176). -/
inductive PollerPhase where
  | idle
  | selected (ids : List Nat)
  | done (result : List Nat)
deriving DecidableEq

/-- Two concurrent `GetNextCommand` calls (pollers `a` and `b`) over the
shared store. -/
structure PollSys where
  db : DBState
  pa : PollerPhase
  pb : PollerPhase

/-- Atomic actions of the interleaved system: each poller's select
statement, each poller's update statement (completing its call exactly
as the source does: empty select returns nil; zero rows affected returns
nil; otherwise the full selected batch is returned marked running), and
a concurrent `Store.CreateCommand` insert by the submit path. -/
inductive PollAction where
  | aSelect (nodeId : String)
  | aClaim
  | bSelect (nodeId : String)
  | bClaim
  | submitInsert (id : Nat) (nodeId : String)

/-- The select step of `GetNextCommand`: on an empty result the call
returns nil immediately (lines 142-148), otherwise the ids are held for
the update statement. -/
def pollerSelect (db : DBState) (nodeId : String) (p : PollerPhase) : PollerPhase :=
  match p with
  | PollerPhase.idle =>
    let ids := selectQueued db nodeId
    if ids = [] then PollerPhase.done [] else PollerPhase.selected ids
  | other => other

/-- The update step of `GetNextCommand`: zero affected rows returns nil
(lines 169-172); otherwise the whole selected batch is returned (lines
174-178), regardless of how many of its rows this call actually
transitioned. -/
def pollerClaim (db : DBState) (p : PollerPhase) : DBState × PollerPhase :=
  match p with
  | PollerPhase.selected ids =>
    let claimed := claimRunning db ids
    (claimed.1, PollerPhase.done (if claimed.2 = 0 then [] else ids))
  | other => (db, other)

/-- One interleaving step. -/
def pollStep (s : PollSys) : PollAction → PollSys
  | PollAction.aSelect nodeId => { s with pa := pollerSelect s.db nodeId s.pa }
  | PollAction.aClaim =>
    let r := pollerClaim s.db s.pa
    { s with db := r.1, pa := r.2 }
  | PollAction.bSelect nodeId => { s with pb := pollerSelect s.db nodeId s.pb }
  | PollAction.bClaim =>
    let r := pollerClaim s.db s.pb
    { s with db := r.1, pb := r.2 }
  | PollAction.submitInsert id nodeId =>
    { s with db := createCommand s.db nodeId "RunCommand" [] id }

/-- Run a schedule of interleaved atomic actions. -/
def runPollSchedule (actions : List PollAction) (s : PollSys) : PollSys :=
  actions.foldl pollStep s

/-- The list of command ids a finished poller returned (as `running`
command objects); empty for an unfinished poller. -/
def pollerResult : PollerPhase → List Nat
  | PollerPhase.done r => r
  | _ => []

/-- Conversion of an emitted chunker chunk to the `CommandLog` the agent
pushes: the push handler (`CommandHandler.PushCommandLogs`,
`src/unnamed/part_002` lines 138-148) stores the chunk fields with
encoding fixed to `utf-8`. -/
def chunkToLog (c : Chunk) : CommandLog :=
  { chunkIndex := c.chunkIndex, stream := c.stream, data := c.data,
    encoding := "utf-8", isFinal := c.isFinal }

/-- The data concatenation accounting of the chunker for the stdout
stream: everything emitted so far plus what is still buffered. -/
def stdoutAccount (c : ChunkerState) : List Nat :=
  stdoutData c.emitted ++ c.stdoutBuffer

/-- The stdout bytes contributed by one chunker event. -/
def eventContribution : ChunkEvent → List Nat
  | ChunkEvent.line s d => if s = "stdout" then d ++ [10] else []
  | _ => []

/-- A `running` command owned by node `n1`, used as concrete input. -/
def demoRunningCommand : CommandRow :=
  { commandId := 1, nodeId := "n1", commandType := "RunCommand", payload := [],
    status := "running", exitCode := none, errorMsg := none, createdSeq := 0 }

/-- Store with node `n1` and the single running command 1, no logs. -/
def c1StartDb : DBState :=
  { nodes := [{ nodeId := "n1", disabled := false }],
    commands := [demoRunningCommand],
    logs := [] }

/-- The store after two `push_logs` calls for the same key
`(command 1, chunk 0, stdout)`: first with `is_final=true`, then with
`is_final=false`. -/
def c1AfterTwoPushes : DBState :=
  (pushCommandLogs
    (pushCommandLogs c1StartDb 1 "n1"
      [{ chunkIndex := 0, stream := "stdout", data := [65], encoding := "utf-8",
         isFinal := true }]).2
    1 "n1"
    [{ chunkIndex := 0, stream := "stdout", data := [66], encoding := "utf-8",
       isFinal := false }]).2

/-- Initial system for the double-dispatch interleaving: node `n1`, one
queued command (id 1), both pollers idle. -/
def c2StartSys : PollSys :=
  { db := { nodes := [{ nodeId := "n1", disabled := false }],
            commands := [{ commandId := 1, nodeId := "n1", commandType := "RunCommand",
                           payload := [], status := "queued", exitCode := none,
                           errorMsg := none, createdSeq := 0 }],
            logs := [] },
    pa := PollerPhase.idle, pb := PollerPhase.idle }

/-- The interleaving: poller `a` runs its select (sees command 1); the
submit path inserts command 2; poller `b` runs its select (sees 1 and
2); `a` runs its update (claims 1, one row affected, returns the batch
with 1); `b` runs its update (1 is no longer queued, but 2 is, so one
row is affected and `b` returns its full selected batch with both 1 and
2 marked running). -/
def c2Schedule : List PollAction :=
  [PollAction.aSelect "n1", PollAction.submitInsert 2 "n1", PollAction.bSelect "n1",
   PollAction.aClaim, PollAction.bClaim]

/-- The final system state of the interleaving. -/
def c2Final : PollSys := runPollSchedule c2Schedule c2StartSys

/-- Store holding command 1 of node `n1` already in the terminal status
`success`. -/
def c3Db : DBState :=
  { nodes := [{ nodeId := "n1", disabled := false }],
    commands := [{ commandId := 1, nodeId := "n1", commandType := "RunCommand",
                   payload := [], status := "success", exitCode := some 0,
                   errorMsg := none, createdSeq := 0 }],
    logs := [] }

/-- Store with the running command 1 and one stored non-final chunk of
that command. -/
def c4Db : DBState :=
  { nodes := [{ nodeId := "n1", disabled := false }],
    commands := [demoRunningCommand],
    logs := [{ commandId := 1, chunkIndex := 0, stream := "stdout", data := [104],
               encoding := "utf-8", isFinal := false }] }

/-- One stored chunk of command 1 at `chunk_index = 0`. -/
def c5Logs : List LogRow :=
  [{ commandId := 1, chunkIndex := 0, stream := "stdout", data := [65],
     encoding := "utf-8", isFinal := false }]

/-- A small log table used to instantiate the reading guarantees. -/
def c5WitnessLogs : List LogRow :=
  [{ commandId := 1, chunkIndex := 3, stream := "stdout", data := [65],
     encoding := "utf-8", isFinal := false },
   { commandId := 1, chunkIndex := 2, stream := "stderr", data := [66],
     encoding := "utf-8", isFinal := false },
   { commandId := 2, chunkIndex := 5, stream := "stdout", data := [67],
     encoding := "utf-8", isFinal := false },
   { commandId := 1, chunkIndex := 2, stream := "stdout", data := [68],
     encoding := "utf-8", isFinal := true }]

/-- The stderr row of index 2 of `c5WitnessLogs`. -/
def c5WitnessRow : LogRow :=
  { commandId := 1, chunkIndex := 2, stream := "stderr", data := [66],
    encoding := "utf-8", isFinal := false }

/-- Store with the enabled node `n1` and no commands, used to
instantiate the submit guarantees. -/
def c6Db : DBState :=
  { nodes := [{ nodeId := "n1", disabled := false }], commands := [], logs := [] }

/-- A valid `RunCommand` payload. -/
def c6Payload : JObject := [("cmd", JValue.jstr "echo hi")]

/-- The chunker events of a run whose child wrote the two bytes
`hi` on stdout and exited without a trailing newline: the stdout reader
scans one line `hi`, then hits EOF and flushes; the process exits and
`FinalFlush` runs. -/
def c7CounterexampleEvents : List ChunkEvent :=
  [ChunkEvent.line "stdout" [104, 105], ChunkEvent.eofFlush "stdout"]

/-- Events of a run whose child wrote `hi\n` (three bytes, newline
terminated) on stdout. -/
def c7WitnessEvents : List ChunkEvent :=
  [ChunkEvent.line "stdout" [104, 105], ChunkEvent.eofFlush "stdout"]

/-- An agent whose identity file is present, with stale tokens
everywhere. -/
def c9Agent : AgentState :=
  { identPresent := true, identNodeId := "node-77", identToken := "old",
    httpClientToken := "old", agentClientToken := "old", hbNodeId := "node-77" }

/-- A chunk whose stream is neither `stdout` nor `stderr`. -/
def c10BadChunk : CommandLog :=
  { chunkIndex := 1, stream := "stdin", data := [65], encoding := "utf-8",
    isFinal := false }

/-- A valid chunk accompanying the invalid one in the same batch. -/
def c10GoodChunk : CommandLog :=
  { chunkIndex := 0, stream := "stdout", data := [66], encoding := "utf-8",
    isFinal := false }

theorem stdoutData_append (a b : List Chunk) :
    stdoutData (a ++ b) = stdoutData a ++ stdoutData b := by
  simp [stdoutData]

/-- Claim C1: the spec requires the stored `is_final` of a chunk key to
be the logical OR of all pushed values (once true, never false again).
The code's upsert is `DO UPDATE SET is_final = EXCLUDED.is_final`
(last write wins): pushing `is_final=true` and then `is_final=false`
for the key `(command 1, chunk 0, stdout)` leaves a single stored row -
the row-count half of the claim holds - whose `is_final` is `false`,
refuting the logical-OR half.  (The stored `data` is still that of the
first push, since the upsert only overwrites `is_final`.) -/
theorem c1_is_final_last_write_wins :
    c1AfterTwoPushes.logs =
      [{ commandId := 1, chunkIndex := 0, stream := "stdout", data := [65],
         encoding := "utf-8", isFinal := false }] := by
  rfl

/-- Claim C2: under the interleaving `c2Schedule` of the two atomic
statements of `Store.GetNextCommand` with a concurrent submit, poller
`a` returns command 1 and poller `b` returns commands 1 and 2, both
presented as having transitioned queued to running: the same command id
is handed to both pollers, refuting the no-double-dispatch claim (the
select has no locking clause, the two statements share no transaction,
and a non-zero affected-row count makes the call return its whole
selected batch). -/
theorem c2_double_dispatch_trace :
    pollerResult c2Final.pa = [1] ∧ pollerResult c2Final.pb = [1, 2] ∧
    1 ∈ pollerResult c2Final.pa ∧ 1 ∈ pollerResult c2Final.pb := by
  refine ⟨rfl, rfl, ?_, ?_⟩ <;> decide

/-- Claim C3: the spec requires terminal statuses to be absorbing, but
`Store.UpdateCommandStatus` updates the row with no guard on the current
status, and `CommandService.UpdateCommandStatus` only checks ownership:
updating command 1, stored as `success`, back to `queued` succeeds and
the stored status becomes `queued`. -/
theorem c3_terminal_status_overwritten :
    (updateCommandStatusService c3Db 1 "n1" "queued" none none).1 = Except.ok () ∧
    ((updateCommandStatusService c3Db 1 "n1" "queued" none none).2.commands.map
      (fun c => c.status)) = ["queued"] := by
  exact ⟨rfl, rfl⟩

/-- Claim C4, counterexample to atomicity: `Store.UpdateCommandStatus`
issues the status update and `MarkAllChunksAsFinal` as two separate
auto-committed statements on the pool (no transaction).  After the
first statement has committed and before the second runs, the store
observably holds command 1 in the terminal status `success` while its
stored chunk still has `is_final=false`: the flip does not happen
atomically with the status transition.  (The error of the second
statement is also silently discarded by the empty `if err != nil {}`
block, so this intermediate state is final whenever the flip fails.) -/
theorem c4_flip_not_atomic_midstate :
    ((updateCommandStatusMidState c4Db 1 "success" (some 0) none).commands.map
      (fun c => (c.commandId, c.status))) = [(1, "success")] ∧
    (updateCommandStatusMidState c4Db 1 "success" (some 0) none).logs =
      [{ commandId := 1, chunkIndex := 0, stream := "stdout", data := [104],
         encoding := "utf-8", isFinal := false }] ∧
    isTerminalStatus "success" = true := by
  exact ⟨rfl, rfl, rfl⟩

/-- Claim C4, amended: when `Store.UpdateCommandStatus` commits a
transition into a terminal status and both of its statements complete,
every stored log chunk row of that command has `is_final=true`
afterwards (the flip is performed by a second, separate statement, not
atomically with the status transition). -/
theorem markAllChunksAsFinal_all_final (logs : List LogRow) (id : Nat) :
    ∀ r ∈ markAllChunksAsFinal logs id, r.commandId = id → r.isFinal = true := by
  intro r hr hid
  simp only [markAllChunksAsFinal, List.mem_map] at hr
  obtain ⟨x, hx, rfl⟩ := hr
  by_cases h2 : x.isFinal = false
  · by_cases h1 : x.commandId = id
    · simp [h1, h2]
    · simp [h1] at hid
  · have h3 : x.isFinal = true := by revert h2; cases x.isFinal <;> simp
    simp [h3]

theorem c4_terminal_finalizes_all_chunks (db : DBState) (commandId : Nat) (status : String)
    (exitCode : Option Int) (errorMsg : Option String)
    (hterm : isTerminalStatus status = true) :
    ∀ r ∈ (updateCommandStatusStore db commandId status exitCode errorMsg).logs,
      r.commandId = commandId → r.isFinal = true := by
  intro r hr hid
  simp only [updateCommandStatusStore, hterm, if_true] at hr
  exact markAllChunksAsFinal_all_final _ _ r hr hid

/-- Witness for the amended Claim C4 at a concrete store: finalising
command 1 in `c4Db` flips its single non-final chunk. -/
theorem c4_terminal_finalizes_all_chunks_witness :
    ({ commandId := 1, chunkIndex := 0, stream := "stdout", data := [104],
       encoding := "utf-8", isFinal := true } : LogRow).isFinal = true :=
  c4_terminal_finalizes_all_chunks c4Db 1 "success" (some 0) none rfl
    { commandId := 1, chunkIndex := 0, stream := "stdout", data := [104],
      encoding := "utf-8", isFinal := true }
    (by decide) rfl

/-- Claim C5, counterexample to strictness: `Store.GetCommandLogs`
filters with `chunk_index >= $2` (inclusive, as its own doc comment
states), so `get_command_logs(1, after_chunk_index=0)` on a store whose
only chunk of command 1 sits at `chunk_index = 0` returns that chunk,
refuting the claim that every returned row satisfies
`chunk_index > 0`. -/
theorem c5_filter_is_inclusive :
    getCommandLogs c5Logs 1 (some 0) =
      [{ commandId := 1, chunkIndex := 0, stream := "stdout", data := [65],
         encoding := "utf-8", isFinal := false }] ∧
    ¬ (∀ r ∈ getCommandLogs c5Logs 1 (some 0), 0 < r.chunkIndex) := by
  constructor
  · rfl
  · decide

/-- Claim C5, amended: every row returned by
`get_command_logs(command_id, after_chunk_index = K)` belongs to the
command and satisfies `chunk_index >= K` (inclusive, not strictly
greater), and the rows come back ordered by `(chunk_index ASC, stream
ASC)`. -/
theorem c5_read_filter_and_order (logs : List LogRow) (id : Nat) (k : Int) :
    (∀ r ∈ getCommandLogs logs id (some k), r.commandId = id ∧ k ≤ r.chunkIndex) ∧
    List.Sorted logRowLe (getCommandLogs logs id (some k)) := by
  constructor
  · intro r hr
    unfold getCommandLogs at hr
    rw [List.mem_insertionSort] at hr
    have hp := List.of_mem_filter hr
    simp only [Bool.and_eq_true, decide_eq_true_eq] at hp
    exact hp
  · exact List.sorted_insertionSort logRowLe _

/-- Witness for the amended Claim C5: reading command 1 after index 2
from the four-row table `c5WitnessLogs` returns the stderr row of index
2 (so `2 <= 2` really occurs), and the full result is sorted. -/
theorem c5_read_filter_and_order_witness :
    (c5WitnessRow.commandId = 1 ∧ (2 : Int) ≤ c5WitnessRow.chunkIndex) ∧
    List.Sorted logRowLe (getCommandLogs c5WitnessLogs 1 (some 2)) :=
  ⟨(c5_read_filter_and_order c5WitnessLogs 1 2).1 c5WitnessRow (by decide),
    (c5_read_filter_and_order c5WitnessLogs 1 2).2⟩

/-- Claim C6: `submit(command_type, node_id, payload)` errors exactly on
an unknown type / failing schema validation, a missing node, or a
disabled node; otherwise it appends exactly one new command row carrying
the fresh server-generated id and `status='queued'` and returns that id.
The freshness hypothesis models `uuid.New()` never colliding with a
stored id. -/
theorem c6_submit_behaviour (db : DBState) (commandType nodeId : String) (payload : JObject)
    (freshId : Nat) :
    (commandType ≠ "RunCommand" → commandType ≠ "UpdateAgent" → commandType ≠ "UpdatePackage" →
      validateCommandPayload commandType payload = Except.error "unknown command type") ∧
    (∀ e, validateCommandPayload commandType payload = Except.error e →
      submitCommand db commandType nodeId payload freshId = (Except.error e, db)) ∧
    (validateCommandPayload commandType payload = Except.ok () →
      db.nodes.find? (fun n => n.nodeId = nodeId) = none →
      submitCommand db commandType nodeId payload freshId = (Except.error "node not found", db)) ∧
    (∀ node, validateCommandPayload commandType payload = Except.ok () →
      db.nodes.find? (fun n => n.nodeId = nodeId) = some node → node.disabled = true →
      submitCommand db commandType nodeId payload freshId = (Except.error "node is disabled", db)) ∧
    (∀ node, validateCommandPayload commandType payload = Except.ok () →
      db.nodes.find? (fun n => n.nodeId = nodeId) = some node → node.disabled = false →
      (∀ c ∈ db.commands, c.commandId ≠ freshId) →
      ∃ row, submitCommand db commandType nodeId payload freshId = (Except.ok freshId,
          { db with commands := db.commands ++ [row] }) ∧
        row.commandId = freshId ∧ row.status = "queued" ∧
        ∀ c ∈ db.commands, c.commandId ≠ row.commandId) := by
  refine ⟨?_, ?_, ?_, ?_, ?_⟩
  · intro h1 h2 h3
    simp [validateCommandPayload, h1, h2, h3]
  · intro e he
    simp [submitCommand, he]
  · intro hok hfind
    simp [submitCommand, hok, hfind]
  · intro node hok hfind hdis
    simp [submitCommand, hok, hfind, hdis]
  · intro node hok hfind hdis hfresh
    refine ⟨{ commandId := freshId, nodeId := nodeId, commandType := commandType,
              payload := payload, status := "queued", exitCode := none, errorMsg := none,
              createdSeq := db.commands.length }, ?_, rfl, rfl, ?_⟩
    · simp [submitCommand, hok, hfind, hdis, createCommand]
    · intro c hc
      exact hfresh c hc

/-- Witness for Claim C6: submitting a valid `RunCommand` to the
enabled node `n1` of the empty store `c6Db` with fresh id 7 produces
exactly one queued row with id 7. -/
theorem c6_submit_behaviour_witness :
    ∃ row, submitCommand c6Db "RunCommand" "n1" c6Payload 7 = (Except.ok 7,
        { c6Db with commands := c6Db.commands ++ [row] }) ∧
      row.commandId = 7 ∧ row.status = "queued" ∧
      ∀ c ∈ c6Db.commands, c.commandId ≠ row.commandId :=
  (c6_submit_behaviour c6Db "RunCommand" "n1" c6Payload 7).2.2.2.2
    { nodeId := "n1", disabled := false } rfl rfl rfl
    (by intro c hc; simp [c6Db] at hc)

/-- Claim C8: `executeRunCommand` applies the 300 second default when
`timeout_sec` is absent, zero or negative, and classifies a `Wait`
error under an exceeded context deadline as status `timeout` with exit
code `-1` (`exec.CommandContext` kills the child at the deadline, so
`Wait` reports an error whenever the deadline cut the run short). -/
theorem c8_timeout_default_and_classification :
    (∀ tf : Option JValue,
      (tf = none ∨ ∃ n : Int, tf = some (JValue.jnum n) ∧ n ≤ 0) →
      effectiveTimeoutSec tf = 300) ∧
    (∀ w : WaitOutcome, w ≠ WaitOutcome.ok →
      classifyRunResult w CtxOutcome.deadlineExceeded = ("timeout", -1)) := by
  constructor
  · intro tf htf
    rcases htf with rfl | ⟨n, rfl, hn⟩
    · rfl
    · simp only [effectiveTimeoutSec, if_neg (not_lt.mpr hn)]
  · intro w hw
    cases w with
    | ok => exact absurd rfl hw
    | exitErr code => rfl
    | otherErr => rfl

/-- Witness for Claim C8 at concrete inputs: absent, zero and negative
`timeout_sec` all yield 300 seconds, and a killed run under an exceeded
deadline reports `timeout` / `-1`. -/
theorem c8_timeout_default_and_classification_witness :
    effectiveTimeoutSec none = 300 ∧
    effectiveTimeoutSec (some (JValue.jnum 0)) = 300 ∧
    effectiveTimeoutSec (some (JValue.jnum (-5))) = 300 ∧
    classifyRunResult WaitOutcome.otherErr CtxOutcome.deadlineExceeded = ("timeout", -1) :=
  ⟨c8_timeout_default_and_classification.1 none (Or.inl rfl),
   c8_timeout_default_and_classification.1 (some (JValue.jnum 0))
     (Or.inr ⟨0, rfl, by norm_num⟩),
   c8_timeout_default_and_classification.1 (some (JValue.jnum (-5)))
     (Or.inr ⟨-5, rfl, by norm_num⟩),
   c8_timeout_default_and_classification.2 WaitOutcome.otherErr (by simp)⟩

/-- Claim C9: a heartbeat failing with HTTP 404 re-registers with the
`node_id` loaded from the identity file (never a fresh one), stores the
newly minted token in the identity file, and installs it into both live
HTTP clients; a heartbeat failure with any other status (and a
successful heartbeat) leaves the whole agent state untouched. -/
theorem c9_heartbeat_reregistration (st : AgentState) (freshToken : String) :
    (st.identPresent = true →
      (sendHeartbeat st HbOutcome.notFound404 freshToken).2 = some st.identNodeId ∧
      (sendHeartbeat st HbOutcome.notFound404 freshToken).1.identNodeId = st.identNodeId ∧
      (sendHeartbeat st HbOutcome.notFound404 freshToken).1.hbNodeId = st.identNodeId ∧
      (sendHeartbeat st HbOutcome.notFound404 freshToken).1.identToken = freshToken ∧
      (sendHeartbeat st HbOutcome.notFound404 freshToken).1.httpClientToken = freshToken ∧
      (sendHeartbeat st HbOutcome.notFound404 freshToken).1.agentClientToken = freshToken) ∧
    sendHeartbeat st HbOutcome.otherErr freshToken = (st, none) ∧
    sendHeartbeat st HbOutcome.ok freshToken = (st, none) := by
  refine ⟨?_, rfl, rfl⟩
  intro hp
  simp [sendHeartbeat, hp]

/-- Witness for Claim C9 at the concrete agent `c9Agent`: the 404 path
re-registers as `node-77` and refreshes every token copy to `fresh`. -/
theorem c9_heartbeat_reregistration_witness :
    (sendHeartbeat c9Agent HbOutcome.notFound404 "fresh").2 = some c9Agent.identNodeId ∧
    (sendHeartbeat c9Agent HbOutcome.notFound404 "fresh").1.identNodeId = c9Agent.identNodeId ∧
    (sendHeartbeat c9Agent HbOutcome.notFound404 "fresh").1.hbNodeId = c9Agent.identNodeId ∧
    (sendHeartbeat c9Agent HbOutcome.notFound404 "fresh").1.identToken = "fresh" ∧
    (sendHeartbeat c9Agent HbOutcome.notFound404 "fresh").1.httpClientToken = "fresh" ∧
    (sendHeartbeat c9Agent HbOutcome.notFound404 "fresh").1.agentClientToken = "fresh" :=
  (c9_heartbeat_reregistration c9Agent "fresh").1 rfl

theorem validateChunks_error_of_invalid (chunks : List CommandLog) :
    (∃ c ∈ chunks, chunkInvalid c) → ∃ e, validateChunks chunks = Except.error e := by
  intro ⟨c, hc, hinv⟩
  induction chunks with
  | nil => cases hc
  | cons hd tl ih =>
    by_cases h1 : hd.stream ≠ "stdout" ∧ hd.stream ≠ "stderr"
    · exact ⟨"invalid stream", by simp [validateChunks, h1]⟩
    · by_cases h2 : hd.chunkIndex < 0
      · exact ⟨"invalid chunk_index", by simp [validateChunks, h1, h2]⟩
      · by_cases h3 : hd.data = []
        · exact ⟨"empty data in chunk", by simp [validateChunks, h1, h2, h3]⟩
        · have htl : c ∈ tl := by
            rcases List.mem_cons.mp hc with rfl | htl
            · exact absurd hinv (by simp [chunkInvalid, h1, h2, h3])
            · exact htl
          obtain ⟨e, he⟩ := ih htl
          exact ⟨e, by simp [validateChunks, h1, h2, h3, he]⟩

theorem chunkInvalid_set_final (c : CommandLog) :
    chunkInvalid { c with isFinal := true } ↔ chunkInvalid c := Iff.rfl

/-- Claim C10: a `push_logs` batch containing any chunk that fails
validation (stream outside stdout/stderr, negative chunk index, or
empty data) makes the whole call return an error with the store
untouched: the batch is validated in full before `InsertLogChunks` is
reached, so no chunk of the batch is stored.  (The terminal-status
`is_final` forcing that precedes validation does not affect any of the
three validity checks.) -/
theorem c10_invalid_chunk_aborts_batch (db : DBState) (commandId : Nat) (nodeId : String)
    (chunks : List CommandLog) (hbad : ∃ c ∈ chunks, chunkInvalid c) :
    ∃ e, pushCommandLogs db commandId nodeId chunks = (Except.error e, db) := by
  unfold pushCommandLogs
  cases hfind : db.commands.find? (fun r => r.commandId = commandId) with
  | none => exact ⟨"command not found", rfl⟩
  | some cmd =>
    by_cases hown : cmd.nodeId ≠ nodeId
    · exact ⟨"command does not belong to node", by simp [hown]⟩
    · have hbad2 : ∃ c ∈ (if isTerminalStatus cmd.status then
          chunks.map (fun c => { c with isFinal := true }) else chunks), chunkInvalid c := by
        obtain ⟨c, hc, hinv⟩ := hbad
        by_cases ht : isTerminalStatus cmd.status
        · refine ⟨{ c with isFinal := true }, ?_, (chunkInvalid_set_final c).mpr hinv⟩
          simp only [ht, if_true]
          exact List.mem_map.mpr ⟨c, hc, rfl⟩
        · simp only [ht, if_false]
          exact ⟨c, hc, hinv⟩
      obtain ⟨e, he⟩ := validateChunks_error_of_invalid _ hbad2
      exact ⟨e, by simp [hown, he]⟩

/-- Witness for Claim C10: a batch pairing a valid chunk with a chunk
of stream `stdin` is rejected as a whole and `c1StartDb` is returned
unchanged. -/
theorem c10_invalid_chunk_aborts_batch_witness :
    ∃ e, pushCommandLogs c1StartDb 1 "n1" [c10GoodChunk, c10BadChunk] =
      (Except.error e, c1StartDb) :=
  c10_invalid_chunk_aborts_batch c1StartDb 1 "n1" [c10GoodChunk, c10BadChunk]
    ⟨c10BadChunk, by simp, by simp [chunkInvalid, c10BadChunk]⟩

theorem stdoutData_singleton (ch : Chunk) :
    stdoutData [ch] = if ch.stream = "stdout" then ch.data else [] := by
  by_cases h : ch.stream = "stdout" <;> simp [stdoutData, h]

theorem flushStream_stdoutAccount (f : Bool) (s : String) (c : ChunkerState) :
    stdoutAccount (flushStream f s c) = stdoutAccount c := by
  by_cases hs : s = "stdout"
  · subst hs
    by_cases hb : c.stdoutBuffer = []
    · simp [flushStream, hb]
    · simp [flushStream, hb, stdoutAccount, stdoutData_append, stdoutData_singleton]
  · by_cases hb : c.stderrBuffer = []
    · simp [flushStream, hs, hb]
    · simp [flushStream, hs, hb, stdoutAccount, stdoutData_append, stdoutData_singleton]

theorem flushStream_stdout_empties (f : Bool) (c : ChunkerState) :
    (flushStream f "stdout" c).stdoutBuffer = [] := by
  by_cases hb : c.stdoutBuffer = []
  · simp [flushStream, hb]
  · simp [flushStream, hb]

theorem flushStream_other_keeps_stdoutBuffer (f : Bool) (s : String) (c : ChunkerState)
    (hs : s ≠ "stdout") : (flushStream f s c).stdoutBuffer = c.stdoutBuffer := by
  by_cases hb : c.stderrBuffer = []
  · simp [flushStream, hs, hb]
  · simp [flushStream, hs, hb]

theorem sizeFlush_stdoutAccount (c : ChunkerState) :
    stdoutAccount (sizeFlush c) = stdoutAccount c := by
  unfold sizeFlush
  by_cases h1 : c.chunkSize ≤ c.stdoutBuffer.length
  · simp only [h1, ite_true]
    by_cases h2 : (flushStream false "stdout" c).chunkSize ≤
        (flushStream false "stdout" c).stderrBuffer.length
    · simp only [h2, ite_true]
      rw [flushStream_stdoutAccount, flushStream_stdoutAccount]
    · simp only [h2, ite_false]
      rw [flushStream_stdoutAccount]
  · simp only [h1, ite_false]
    by_cases h2 : c.chunkSize ≤ c.stderrBuffer.length
    · simp only [h2, ite_true]
      rw [flushStream_stdoutAccount]
    · simp only [h2, ite_false]

theorem appendToBuffer_stdoutAccount (s : String) (d : List Nat) (c : ChunkerState) :
    stdoutAccount (appendToBuffer s d c) =
      stdoutAccount c ++ (if s = "stdout" then d ++ [10] else []) := by
  unfold appendToBuffer
  rw [sizeFlush_stdoutAccount]
  by_cases hs : s = "stdout"
  · simp [hs, stdoutAccount]
  · simp [hs, stdoutAccount]

theorem chunkerStep_stdoutAccount (c : ChunkerState) (e : ChunkEvent) :
    stdoutAccount (chunkerStep c e) = stdoutAccount c ++ eventContribution e := by
  cases e with
  | line s d => exact appendToBuffer_stdoutAccount s d c
  | tick =>
    simp only [chunkerStep, flushBuffers, eventContribution, List.append_nil]
    rw [flushStream_stdoutAccount, flushStream_stdoutAccount]
  | eofFlush s =>
    simp only [chunkerStep, eventContribution, List.append_nil]
    rw [flushStream_stdoutAccount]

theorem foldl_chunkerStep_stdoutAccount (events : List ChunkEvent) (c : ChunkerState) :
    stdoutAccount (events.foldl chunkerStep c) =
      stdoutAccount c ++ (events.map eventContribution).flatten := by
  induction events generalizing c with
  | nil => simp
  | cons e es ih =>
    simp only [List.foldl_cons, List.map_cons, List.flatten_cons]
    rw [ih, chunkerStep_stdoutAccount, List.append_assoc]

theorem runChunker_stdoutData (chunkSize : Nat) (events : List ChunkEvent) :
    stdoutData (runChunker chunkSize events).emitted =
      (events.map eventContribution).flatten := by
  unfold runChunker finalFlush
  set s1 := events.foldl chunkerStep (initChunker chunkSize) with hs1
  have hacc : stdoutAccount s1 = (events.map eventContribution).flatten := by
    rw [hs1, foldl_chunkerStep_stdoutAccount]
    simp [stdoutAccount, stdoutData, initChunker]
  set s2 := flushStream true "stdout" s1 with hs2
  have hacc2 : stdoutAccount s2 = (events.map eventContribution).flatten := by
    rw [hs2, flushStream_stdoutAccount, hacc]
  have hbuf2 : s2.stdoutBuffer = [] := flushStream_stdout_empties true s1
  have hdata2 : stdoutData s2.emitted = (events.map eventContribution).flatten := by
    have := hacc2
    unfold stdoutAccount at this
    rw [hbuf2, List.append_nil] at this
    exact this
  have hacc3 : stdoutAccount (flushStream true "stderr" s2) =
      (events.map eventContribution).flatten := by
    rw [flushStream_stdoutAccount, hacc2]
  have hbuf3 : (flushStream true "stderr" s2).stdoutBuffer = [] := by
    rw [flushStream_other_keeps_stdoutBuffer true "stderr" s2 (by decide), hbuf2]
  unfold stdoutAccount at hacc3
  rw [hbuf3, List.append_nil] at hacc3
  exact hacc3

theorem eventContribution_eq_stdoutLines (events : List ChunkEvent) :
    (events.map eventContribution).flatten =
      ((stdoutLines events).map (fun l => l ++ [10])).flatten := by
  induction events with
  | nil => rfl
  | cons e es ih =>
    cases e with
    | line s d =>
      by_cases hs : s = "stdout"
      · simp only [List.map_cons, List.flatten_cons, eventContribution, hs, if_true,
          stdoutLines, List.filterMap_cons]
        simp only [stdoutLines] at ih
        simp [ih]
      · simp only [List.map_cons, List.flatten_cons, eventContribution, hs, if_false,
          stdoutLines, List.filterMap_cons]
        simp only [stdoutLines] at ih
        simp [hs, ih]
    | tick =>
      simp only [List.map_cons, List.flatten_cons, eventContribution,
        stdoutLines, List.filterMap_cons]
      simp only [stdoutLines] at ih
      simp [ih]
    | eofFlush s =>
      simp only [List.map_cons, List.flatten_cons, eventContribution,
        stdoutLines, List.filterMap_cons]
      simp only [stdoutLines] at ih
      simp [ih]

theorem flushStream_emitted_invariant (f : Bool) (s : String) (c : ChunkerState)
    (hb : ∀ ch ∈ c.emitted, ch.chunkIndex < c.currentChunkIndex)
    (hp : c.emitted.Pairwise (fun a b => a.chunkIndex < b.chunkIndex)) :
    (∀ ch ∈ (flushStream f s c).emitted,
      ch.chunkIndex < (flushStream f s c).currentChunkIndex) ∧
    (flushStream f s c).emitted.Pairwise (fun a b => a.chunkIndex < b.chunkIndex) := by
  by_cases hs : s = "stdout"
  · subst hs
    by_cases hbuf : c.stdoutBuffer = []
    · simp only [flushStream, hbuf, if_pos, if_true]
      exact ⟨hb, hp⟩
    · simp only [flushStream, if_pos, hbuf, if_false, ite_true, ite_false]
      constructor
      · intro ch hch
        rcases List.mem_append.mp hch with hold | hnew
        · exact lt_trans (hb ch hold) (lt_add_one _)
        · rcases List.mem_singleton.mp hnew with rfl
          exact lt_add_one _
      · refine List.pairwise_append.mpr ⟨hp, List.pairwise_singleton _ _, ?_⟩
        intro a ha b hbm
        rcases List.mem_singleton.mp hbm with rfl
        exact hb a ha
  · by_cases hbuf : c.stderrBuffer = []
    · simp only [flushStream, hs, if_false, hbuf, if_true, ite_false, ite_true]
      exact ⟨hb, hp⟩
    · simp only [flushStream, hs, hbuf, if_false, ite_false]
      constructor
      · intro ch hch
        rcases List.mem_append.mp hch with hold | hnew
        · exact lt_trans (hb ch hold) (lt_add_one _)
        · rcases List.mem_singleton.mp hnew with rfl
          exact lt_add_one _
      · refine List.pairwise_append.mpr ⟨hp, List.pairwise_singleton _ _, ?_⟩
        intro a ha b hbm
        rcases List.mem_singleton.mp hbm with rfl
        exact hb a ha

theorem sizeFlush_emitted_invariant (c : ChunkerState)
    (hb : ∀ ch ∈ c.emitted, ch.chunkIndex < c.currentChunkIndex)
    (hp : c.emitted.Pairwise (fun a b => a.chunkIndex < b.chunkIndex)) :
    (∀ ch ∈ (sizeFlush c).emitted, ch.chunkIndex < (sizeFlush c).currentChunkIndex) ∧
    (sizeFlush c).emitted.Pairwise (fun a b => a.chunkIndex < b.chunkIndex) := by
  unfold sizeFlush
  by_cases h1 : c.chunkSize ≤ c.stdoutBuffer.length
  · simp only [h1, ite_true]
    have hstep := flushStream_emitted_invariant false "stdout" c hb hp
    by_cases h2 : (flushStream false "stdout" c).chunkSize ≤
        (flushStream false "stdout" c).stderrBuffer.length
    · simp only [h2, ite_true]
      exact flushStream_emitted_invariant false "stderr" _ hstep.1 hstep.2
    · simp only [h2, ite_false]
      exact hstep
  · simp only [h1, ite_false]
    by_cases h2 : c.chunkSize ≤ c.stderrBuffer.length
    · simp only [h2, ite_true]
      exact flushStream_emitted_invariant false "stderr" c hb hp
    · simp only [h2, ite_false]
      exact ⟨hb, hp⟩

theorem appendToBuffer_emitted_invariant (s : String) (d : List Nat) (c : ChunkerState)
    (hb : ∀ ch ∈ c.emitted, ch.chunkIndex < c.currentChunkIndex)
    (hp : c.emitted.Pairwise (fun a b => a.chunkIndex < b.chunkIndex)) :
    (∀ ch ∈ (appendToBuffer s d c).emitted,
      ch.chunkIndex < (appendToBuffer s d c).currentChunkIndex) ∧
    (appendToBuffer s d c).emitted.Pairwise (fun a b => a.chunkIndex < b.chunkIndex) := by
  unfold appendToBuffer
  by_cases hs : s = "stdout"
  · simp only [hs, ite_true]
    exact sizeFlush_emitted_invariant _ hb hp
  · simp only [hs, ite_false]
    exact sizeFlush_emitted_invariant _ hb hp

theorem chunkerStep_emitted_invariant (c : ChunkerState) (e : ChunkEvent)
    (hb : ∀ ch ∈ c.emitted, ch.chunkIndex < c.currentChunkIndex)
    (hp : c.emitted.Pairwise (fun a b => a.chunkIndex < b.chunkIndex)) :
    (∀ ch ∈ (chunkerStep c e).emitted,
      ch.chunkIndex < (chunkerStep c e).currentChunkIndex) ∧
    (chunkerStep c e).emitted.Pairwise (fun a b => a.chunkIndex < b.chunkIndex) := by
  cases e with
  | line s d => exact appendToBuffer_emitted_invariant s d c hb hp
  | tick =>
    have hstep := flushStream_emitted_invariant false "stdout" c hb hp
    exact flushStream_emitted_invariant false "stderr" _ hstep.1 hstep.2
  | eofFlush s => exact flushStream_emitted_invariant false s c hb hp

theorem foldl_chunkerStep_emitted_invariant (events : List ChunkEvent) (c : ChunkerState)
    (hb : ∀ ch ∈ c.emitted, ch.chunkIndex < c.currentChunkIndex)
    (hp : c.emitted.Pairwise (fun a b => a.chunkIndex < b.chunkIndex)) :
    (∀ ch ∈ (events.foldl chunkerStep c).emitted,
      ch.chunkIndex < (events.foldl chunkerStep c).currentChunkIndex) ∧
    (events.foldl chunkerStep c).emitted.Pairwise
      (fun a b => a.chunkIndex < b.chunkIndex) := by
  induction events generalizing c with
  | nil => exact ⟨hb, hp⟩
  | cons e es ih =>
    have hstep := chunkerStep_emitted_invariant c e hb hp
    exact ih (chunkerStep c e) hstep.1 hstep.2

theorem runChunker_emitted_pairwise (chunkSize : Nat) (events : List ChunkEvent) :
    (runChunker chunkSize events).emitted.Pairwise
      (fun a b => a.chunkIndex < b.chunkIndex) := by
  unfold runChunker finalFlush
  have h0 : ∀ ch ∈ (initChunker chunkSize).emitted,
      ch.chunkIndex < (initChunker chunkSize).currentChunkIndex := by
    intro ch hch
    cases hch
  have h0p : (initChunker chunkSize).emitted.Pairwise
      (fun a b => a.chunkIndex < b.chunkIndex) := List.Pairwise.nil
  have h1 := foldl_chunkerStep_emitted_invariant events (initChunker chunkSize) h0 h0p
  have h2 := flushStream_emitted_invariant true "stdout" _ h1.1 h1.2
  exact (flushStream_emitted_invariant true "stderr" _ h2.1 h2.2).2

theorem insertLogChunks_snd (logs : List LogRow) (id : Nat) (chunks : List CommandLog) :
    (insertLogChunks logs id chunks).2 =
      chunks.foldl (fun lgs c => upsertLogChunk lgs (chunkRow id c)) logs := by
  unfold insertLogChunks
  suffices h : ∀ (a : List Int) (l : List LogRow),
      (chunks.foldl
        (fun acc c => (acc.1 ++ [c.chunkIndex], upsertLogChunk acc.2 (chunkRow id c)))
        (a, l)).2 =
        chunks.foldl (fun lgs c => upsertLogChunk lgs (chunkRow id c)) l by
    exact h [] logs
  induction chunks with
  | nil => intro a l; rfl
  | cons c cs ih => intro a l; exact ih _ _

theorem upsertLogChunk_fresh (logs : List LogRow) (row : LogRow)
    (h : ∀ r ∈ logs, sameLogKey r row = false) :
    upsertLogChunk logs row = logs ++ [row] := by
  unfold upsertLogChunk
  have hany : logs.any (fun r => sameLogKey r row) = false := by
    rw [List.any_eq_false]
    intro x hx
    simp [h x hx]
  simp [hany]

theorem foldl_upsert_fresh (id : Nat) (chunks : List CommandLog) (logs : List LogRow)
    (hfresh : ∀ c ∈ chunks, ∀ r ∈ logs, sameLogKey r (chunkRow id c) = false)
    (hpair : chunks.Pairwise (fun a b => sameLogKey (chunkRow id a) (chunkRow id b) = false)) :
    chunks.foldl (fun lgs c => upsertLogChunk lgs (chunkRow id c)) logs =
      logs ++ chunks.map (chunkRow id) := by
  induction chunks generalizing logs with
  | nil => simp
  | cons c cs ih =>
    simp only [List.foldl_cons, List.map_cons]
    rw [upsertLogChunk_fresh logs (chunkRow id c) (hfresh c (List.mem_cons_self c cs))]
    rw [ih (logs ++ [chunkRow id c])]
    · simp
    · intro c2 hc2 r hr
      rcases List.mem_append.mp hr with hr1 | hr2
      · exact hfresh c2 (List.mem_cons_of_mem c hc2) r hr1
      · rcases List.mem_singleton.mp hr2 with rfl
        exact (List.pairwise_cons.mp hpair).1 c2 hc2
    · exact (List.pairwise_cons.mp hpair).2

/-- Claim C7, amended: for a `RunCommand` run whose stdout reader scans
the emitted bytes into lines (`hlines`), pushing every emitted chunk
into an empty log table and reading it back through `get_command_logs`,
filtered to stream `stdout` in the returned `(chunk_index, stream)`
order, reconstructs the emitted bytes with the scanner's line
normalization applied: every line with a newline byte appended.  The
concatenation is byte-equal to the emitted bytes exactly when they are
already in that form (newline-terminated, no carriage return before a
newline, every line under the scanner's token limit); a trailing
unterminated or `\r\n`-terminated line is rewritten. -/
theorem c7_round_trip_line_normalized (chunkSize : Nat) (commandId : Nat)
    (events : List ChunkEvent) (input : List Nat)
    (hlines : stdoutLines events = scanLines input) :
    (((getCommandLogs
        (insertLogChunks [] commandId
          ((runChunker chunkSize events).emitted.map chunkToLog)).2
        commandId none).filter (fun r => r.stream = "stdout")).map
        (fun r => r.data)).flatten = normalizeNewlines input ∧
    (normalizeNewlines input = input →
      (((getCommandLogs
          (insertLogChunks [] commandId
            ((runChunker chunkSize events).emitted.map chunkToLog)).2
          commandId none).filter (fun r => r.stream = "stdout")).map
          (fun r => r.data)).flatten = input) := by
  have hmain : (((getCommandLogs
      (insertLogChunks [] commandId
        ((runChunker chunkSize events).emitted.map chunkToLog)).2
      commandId none).filter (fun r => r.stream = "stdout")).map
      (fun r => r.data)).flatten = normalizeNewlines input := by
    have hpair := runChunker_emitted_pairwise chunkSize events
    have hkeys : ((runChunker chunkSize events).emitted.map chunkToLog).Pairwise
        (fun a b => sameLogKey (chunkRow commandId a) (chunkRow commandId b) = false) := by
      rw [List.pairwise_map]
      refine hpair.imp ?_
      intro a b h
      have hne : a.chunkIndex ≠ b.chunkIndex := ne_of_lt h
      simp [sameLogKey, chunkRow, chunkToLog, hne]
    have hrows : (insertLogChunks [] commandId
        ((runChunker chunkSize events).emitted.map chunkToLog)).2 =
        (runChunker chunkSize events).emitted.map
          (fun ch => chunkRow commandId (chunkToLog ch)) := by
      rw [insertLogChunks_snd, foldl_upsert_fresh commandId _ [] (by intro c hc r hr; cases hr)
        hkeys]
      simp [List.map_map, Function.comp]
    have hall : ∀ r ∈ (runChunker chunkSize events).emitted.map
        (fun ch => chunkRow commandId (chunkToLog ch)), r.commandId = commandId := by
      intro r hr
      rcases List.mem_map.mp hr with ⟨ch, _, rfl⟩
      rfl
    have hsorted : ((runChunker chunkSize events).emitted.map
        (fun ch => chunkRow commandId (chunkToLog ch))).Pairwise logRowLe := by
      rw [List.pairwise_map]
      refine hpair.imp ?_
      intro a b h
      exact Or.inl h
    have hget : getCommandLogs ((runChunker chunkSize events).emitted.map
        (fun ch => chunkRow commandId (chunkToLog ch))) commandId none =
        (runChunker chunkSize events).emitted.map
          (fun ch => chunkRow commandId (chunkToLog ch)) := by
      unfold getCommandLogs
      have hfilter : ((runChunker chunkSize events).emitted.map
          (fun ch => chunkRow commandId (chunkToLog ch))).filter
          (fun r => r.commandId = commandId &&
            (match (none : Option Int) with
             | some k => decide (k ≤ r.chunkIndex)
             | none => true)) =
          (runChunker chunkSize events).emitted.map
            (fun ch => chunkRow commandId (chunkToLog ch)) := by
        rw [List.filter_eq_self]
        intro r hr
        simp [hall r hr]
      rw [hfilter]
      exact List.Sorted.insertionSort_eq hsorted
    rw [hrows, hget, List.filter_map, List.map_map]
    show stdoutData (runChunker chunkSize events).emitted = normalizeNewlines input
    rw [runChunker_stdoutData, eventContribution_eq_stdoutLines, hlines]
    rfl
  exact ⟨hmain, fun hnorm => hmain.trans hnorm⟩

/-- Witness for the amended Claim C7: a run that emitted the three
bytes `hi\n` (one scanned line `hi`) round-trips byte-equal through the
chunker, the log store and `get_command_logs`. -/
theorem c7_round_trip_line_normalized_witness :
    (((getCommandLogs
        (insertLogChunks [] 5
          ((runChunker 16384 c7WitnessEvents).emitted.map chunkToLog)).2
        5 none).filter (fun r => r.stream = "stdout")).map
        (fun r => r.data)).flatten = [104, 105, 10] :=
  (c7_round_trip_line_normalized 16384 5 c7WitnessEvents [104, 105, 10]
    (by decide)).2 (by decide)

/-- Claim C7, counterexample to byte equality as stated: a child that
emits the two bytes `hi` with no trailing newline is scanned as the
single line `hi`, and the chunker stores `hi\n` (the newline appended by
`appendToBuffer`): the reconstructed bytes are `[104, 105, 10]`, not the
emitted `[104, 105]`. -/
theorem c7_round_trip_counterexample :
    stdoutLines c7CounterexampleEvents = scanLines [104, 105] ∧
    (((getCommandLogs
        (insertLogChunks [] 5
          ((runChunker 16384 c7CounterexampleEvents).emitted.map chunkToLog)).2
        5 none).filter (fun r => r.stream = "stdout")).map
        (fun r => r.data)).flatten = [104, 105, 10] ∧
    ([104, 105, 10] : List Nat) ≠ [104, 105] := by
  refine ⟨by decide, ?_, by decide⟩
  decide
